import Mathlib

/-!
Verification of the ledger engine of the `accounting` desktop bookkeeping
application (package `account_manager`).

The development shallowly embeds `database/db_manager.py` and the date helper
from `utils/helpers.py`.  SQLite tables become Lean lists of records,
`AUTOINCREMENT` surrogate keys become explicit `next…Id` counters threaded
through the state, `datetime.now()` / `CURRENT_TIMESTAMP` become explicit
`now` string parameters, and Python exceptions become `Except DBError`
results (a raised exception rolls the SQLite transaction back, so an `error`
result carries no state).  Monetary amounts (SQLite `REAL`) are modelled as
exact integers: every operation uses only addition, subtraction and order
comparison on amounts, so the development is insensitive to the exact numeric
representation chosen.  `ORDER BY` on a column whose ties SQLite leaves
unspecified is modelled as a stable sort on that column.  String comparison
(Python `<` on str, SQLite BINARY collation) is modelled as lexicographic
comparison of character lists, and `str.split('-')` / `str.lower()` are
implemented structurally on character lists so that they compute.
-/

/-- Row of the `transactions` table. -/
structure Tx where
  id : Nat
  transaction_date : String
  amount : ℤ
  from_type : String
  from_id : Nat
  to_type : String
  to_id : Nat
  description : String
  reference : String
  created_date : String
deriving DecidableEq

/-- Row of the `companies` table (`id, name, address, phone, email, balance`).
The `name` column is declared `TEXT NOT NULL UNIQUE` in `create_tables`. -/
structure Company where
  id : Nat
  name : String
  address : String
  phone : String
  email : String
  balance : ℤ
deriving DecidableEq

/-- Row of the `users` table (after the email migration: no UNIQUE constraint
on `email`).  The `company_id` foreign key is never enforced because the code
never issues `PRAGMA foreign_keys = ON`. -/
structure User where
  id : Nat
  company_id : Option Nat
  name : String
  email : String
  role : String
  department : String
  balance : ℤ
deriving DecidableEq

/-- The persistent database state managed by `DatabaseManager`. -/
structure DBState where
  companies : List Company
  users : List User
  transactions : List Tx
  nextCompanyId : Nat
  nextUserId : Nat
  nextTxId : Nat
deriving DecidableEq

/-- Error taxonomy of the engine: `ValueError` validation failures, the
generic not-found / insufficient-balance exceptions raised by `withdraw`, and
SQLite integrity errors (UNIQUE violations). -/
inductive DBError where
  | validationError (msg : String)
  | notFound (msg : String)
  | insufficientBalance (current requested : ℤ)
  | integrityError (msg : String)
deriving DecidableEq

/-! ## Computable string helpers -/

/-- Lexicographic strict comparison of character lists: the order used by
Python `<` on `str` and by SQLite's BINARY collation. -/
def charListLt : List Char → List Char → Bool
  | [], [] => false
  | [], _ :: _ => true
  | _ :: _, [] => false
  | a :: as, b :: bs => decide (a < b) || (a == b && charListLt as bs)

/-- Strict lexicographic order on strings. -/
def strLt (a b : String) : Bool := charListLt a.data b.data

/-- Reflexive lexicographic order on strings. -/
def strLe (a b : String) : Bool := strLt a b || a == b

/-- Helper of `splitDash`: accumulate the current chunk (reversed). -/
def splitDashAux : List Char → List Char → List String
  | [], acc => [String.mk acc.reverse]
  | c :: cs, acc =>
    if c = '-' then String.mk acc.reverse :: splitDashAux cs []
    else splitDashAux cs (c :: acc)

/-- Python `s.split('-')` (always returns at least one chunk). -/
def splitDash (s : String) : List String := splitDashAux s.data []

/-- ASCII lowercasing of a string (`str.lower()`; `Char.toLower` only
touches `A`–`Z`). -/
def lowerStr (s : String) : List Char := s.data.map Char.toLower

/-! ## Date normalisation (`utils/helpers.py`, `normalize_date_for_sort`) -/

/-- Two-digit zero padding, as produced by `strftime("%m")` / `strftime("%d")`. -/
def pad2 (n : Nat) : String := if n < 10 then "0" ++ toString n else toString n

/-- Digit-string of length between `lo` and `hi`. -/
def isDigitsLen (lo hi : Nat) (s : String) : Bool :=
  lo ≤ s.length && s.length ≤ hi && s.data.all (fun c => c.isDigit)

/-- Numeric value of a digit string. -/
def strNat (s : String) : Nat := s.data.foldl (fun n c => n * 10 + (c.toNat - 48)) 0

def isLeapYear (y : Nat) : Bool := (y % 4 == 0 && y % 100 != 0) || (y % 400 == 0)

def daysInMonth (y m : Nat) : Nat :=
  if m = 2 then (if isLeapYear y then 29 else 28)
  else if m = 4 || m = 6 || m = 9 || m = 11 then 30
  else 31

/-- Calendar validity as enforced by Python `datetime(year, month, day)`
(`MINYEAR = 1`, `MAXYEAR = 9999`). -/
def validYMD (y m d : Nat) : Bool :=
  1 ≤ y && y ≤ 9999 && 1 ≤ m && m ≤ 12 && 1 ≤ d && d ≤ daysInMonth y m

/-- Success of `datetime.strptime(s, "%d-%m-%Y")` on the three `-`-separated
parts: `%d` and `%m` accept one or two digits, `%Y` exactly four. -/
def parsesAsDMY (p1 p2 p3 : String) : Bool :=
  isDigitsLen 1 2 p1 && isDigitsLen 1 2 p2 && isDigitsLen 4 4 p3 &&
  validYMD (strNat p3) (strNat p2) (strNat p1)

/-- Success of `datetime.strptime(s, "%Y-%m-%d")` on the three parts. -/
def parsesAsYMD (p1 p2 p3 : String) : Bool :=
  isDigitsLen 4 4 p1 && isDigitsLen 1 2 p2 && isDigitsLen 1 2 p3 &&
  validYMD (strNat p1) (strNat p2) (strNat p3)

/-- Whether a whole date string parses as `%d-%m-%Y`. -/
def parsesDateDMY (str : String) : Bool :=
  match splitDash str with
  | [p1, p2, p3] => parsesAsDMY p1 p2 p3
  | _ => false

/-- `normalize_date_for_sort` from `utils/helpers.py`: empty input maps to
`""`; a `DD-MM-YYYY` date is rewritten to `YYYY-MM-DD`; a string already
parsing as `%Y-%m-%d` is returned unchanged; any other string falls through
the two `except ValueError: pass` handlers and is returned unchanged.  The
year part is echoed verbatim (it is constrained to exactly four digits). -/
def normalize_date_for_sort (date_str : String) : String :=
  if date_str = "" then ""
  else
    match splitDash date_str with
    | [p1, p2, p3] =>
      if parsesAsDMY p1 p2 p3 then p3 ++ "-" ++ pad2 (strNat p2) ++ "-" ++ pad2 (strNat p1)
      else if parsesAsYMD p1 p2 p3 then date_str
      else date_str
    | _ => date_str

/-! ## Balance updates and dispatch -/

/-- `UPDATE companies SET balance = balance + ? WHERE id = ?`
(`update_company_balance`). -/
def update_company_balance (cid : Nat) (amt : ℤ) (l : List Company) : List Company :=
  l.map (fun c => if c.id = cid then { c with balance := c.balance + amt } else c)

/-- `UPDATE users SET balance = balance + ? WHERE id = ?` (`update_user_balance`). -/
def update_user_balance (uid : Nat) (amt : ℤ) (l : List User) : List User :=
  l.map (fun u => if u.id = uid then { u with balance := u.balance + amt } else u)

/-- The `if ty == 'company': … elif ty == 'user': …` dispatch used by
`delete_transaction` and `delete_multiple_transactions`; any other type
(notably `'cash'`) falls through and updates nothing. -/
def adjustBalance (ty : String) (pid : Nat) (amt : ℤ) (s : DBState) : DBState :=
  if ty = "company" then { s with companies := update_company_balance pid amt s.companies }
  else if ty = "user" then { s with users := update_user_balance pid amt s.users }
  else s

/-- The `if ty == 'company': … else: …` dispatch used by `add_transaction`,
`deposit` and `withdraw`, which have already validated `ty ∈ {company, user}`. -/
def adjustBalanceElse (ty : String) (pid : Nat) (amt : ℤ) (s : DBState) : DBState :=
  if ty = "company" then { s with companies := update_company_balance pid amt s.companies }
  else { s with users := update_user_balance pid amt s.users }

/-! ## Party creation (`add_company`, `add_user`) -/

/-- `add_company`: a plain INSERT.  The schema's `UNIQUE` constraint on
`companies.name` makes SQLite raise an IntegrityError on a duplicate name;
no constraint applies to `address`, `phone` or `email`. -/
def add_company (name address phone email : String) (s : DBState) :
    Except DBError (Nat × DBState) :=
  if s.companies.any (fun c => c.name == name) then
    .error (.integrityError "UNIQUE constraint failed: companies.name")
  else
    .ok (s.nextCompanyId,
      { s with
        companies := s.companies ++ [⟨s.nextCompanyId, name, address, phone, email, 0⟩],
        nextCompanyId := s.nextCompanyId + 1 })

/-- `add_user`: a plain INSERT with no uniqueness constraint on any column
(the email UNIQUE constraint was removed by migration). -/
def add_user (name email role department : String) (company_id : Option Nat) (s : DBState) :
    Except DBError (Nat × DBState) :=
  .ok (s.nextUserId,
    { s with
      users := s.users ++ [⟨s.nextUserId, company_id, name, email, role, department, 0⟩],
      nextUserId := s.nextUserId + 1 })

/-! ## Transaction operations -/

/-- `add_transaction`: validates `amount > 0` and both types in
`{company, user}` (it does not compare the from side with the to side), then
atomically inserts the row and applies the two balance updates. -/
def add_transaction (now transaction_date : String) (amount : ℤ)
    (from_type : String) (from_id : Nat) (to_type : String) (to_id : Nat)
    (description reference : String) (s : DBState) : Except DBError (Nat × DBState) :=
  if amount ≤ 0 then .error (.validationError "Transaction amount must be positive")
  else if ¬ (from_type = "company" ∨ from_type = "user") ∨
          ¬ (to_type = "company" ∨ to_type = "user") then
    .error (.validationError "Transaction type must be company or user")
  else
    let t : Tx := ⟨s.nextTxId, transaction_date, amount, from_type, from_id, to_type, to_id,
                   description, reference, now⟩
    let s1 : DBState := { s with transactions := s.transactions ++ [t], nextTxId := s.nextTxId + 1 }
    .ok (s.nextTxId, adjustBalanceElse to_type to_id amount
      (adjustBalanceElse from_type from_id (-amount) s1))

/-- `deposit`: inserts a `cash → entity` row dated `now` with reference
`DEPOSIT` and credits the entity, atomically. -/
def deposit (now : String) (entity_type : String) (entity_id : Nat) (amount : ℤ)
    (description : String) (s : DBState) : Except DBError (Nat × DBState) :=
  if amount ≤ 0 then .error (.validationError "Deposit amount must be positive")
  else if ¬ (entity_type = "company" ∨ entity_type = "user") then
    .error (.validationError "Entity type must be company or user")
  else
    let t : Tx := ⟨s.nextTxId, now, amount, "cash", 0, entity_type, entity_id,
                   description, "DEPOSIT", now⟩
    let s1 : DBState := { s with transactions := s.transactions ++ [t], nextTxId := s.nextTxId + 1 }
    .ok (s.nextTxId, adjustBalanceElse entity_type entity_id amount s1)

/-- Stored balance of an entity, as fetched by `get_company` / `get_user`
(`SELECT * WHERE id = ?`, first row). -/
def entityBalance (entity_type : String) (entity_id : Nat) (s : DBState) : Option ℤ :=
  if entity_type = "company" then (s.companies.find? (fun c => c.id == entity_id)).map Company.balance
  else (s.users.find? (fun u => u.id == entity_id)).map User.balance

/-- `withdraw`: validates the amount and type, fetches the entity, raises
not-found or insufficient-balance before any write, then inserts an
`entity → cash` row with reference `WITHDRAW` and debits the entity. -/
def withdraw (now : String) (entity_type : String) (entity_id : Nat) (amount : ℤ)
    (description : String) (s : DBState) : Except DBError (Nat × DBState) :=
  if amount ≤ 0 then .error (.validationError "Withdrawal amount must be positive")
  else if ¬ (entity_type = "company" ∨ entity_type = "user") then
    .error (.validationError "Entity type must be company or user")
  else
    match entityBalance entity_type entity_id s with
    | none => .error (.notFound ("Entity not found: " ++ entity_type))
    | some bal =>
      if bal < amount then .error (.insufficientBalance bal amount)
      else
        let t : Tx := ⟨s.nextTxId, now, amount, entity_type, entity_id, "cash", 0,
                       description, "WITHDRAW", now⟩
        let s1 : DBState :=
          { s with transactions := s.transactions ++ [t], nextTxId := s.nextTxId + 1 }
        .ok (s.nextTxId, adjustBalanceElse entity_type entity_id (-amount) s1)

/-- `delete_transaction`: looks the row up (`get_transaction`), returns 0 if
absent, otherwise atomically reverses both balance effects (cash sides fall
through untouched) and deletes the row, returning the DELETE rowcount. -/
def delete_transaction (transaction_id : Nat) (s : DBState) : Nat × DBState :=
  match s.transactions.find? (fun t => t.id == transaction_id) with
  | none => (0, s)
  | some t =>
    let s2 := adjustBalance t.to_type t.to_id (-t.amount)
      (adjustBalance t.from_type t.from_id t.amount s)
    (s.transactions.countP (fun x => x.id == transaction_id),
     { s2 with transactions := s2.transactions.filter (fun x => x.id != transaction_id) })

/-- One iteration of the `delete_multiple_transactions` loop.  Unlike
`delete_transaction`, every balance update and the DELETE are issued with
`auto_commit=True` (the default), so the iteration's effects are durably
committed as soon as it finishes. -/
def delete_one_step (transaction_id : Nat) (s : DBState) : Nat × DBState :=
  match s.transactions.find? (fun t => t.id == transaction_id) with
  | none => (0, s)
  | some t =>
    let s2 := adjustBalance t.to_type t.to_id (-t.amount)
      (adjustBalance t.from_type t.from_id t.amount s)
    (1, { s2 with transactions := s2.transactions.filter (fun x => x.id != transaction_id) })

/-- `delete_multiple_transactions`: iterates the per-id deletion, skipping
ids with no matching row, and returns the number actually deleted. -/
def delete_multiple_transactions (transaction_ids : List Nat) (s : DBState) : Nat × DBState :=
  transaction_ids.foldl
    (fun acc tid =>
      let r := delete_one_step tid acc.2
      (acc.1 + r.1, r.2))
    (0, s)

/-- Committed state when an exception aborts the `delete_multiple_transactions`
loop after the first `k` ids have been processed: the `except` branch calls
`rollback()`, but every statement of the completed iterations was already
committed (each inner call used the default `auto_commit=True`), so the
rollback restores nothing. -/
def delete_multiple_aborted (transaction_ids : List Nat) (k : Nat) (s : DBState) : DBState :=
  (delete_multiple_transactions (transaction_ids.take k) s).2

/-! ## Name resolution (the LEFT JOIN / CASE pattern of the read queries) -/

def companyName (s : DBState) (cid : Nat) : Option String :=
  (s.companies.find? (fun c => c.id == cid)).map Company.name

def userName (s : DBState) (uid : Nat) : Option String :=
  (s.users.find? (fun u => u.id == uid)).map User.name

/-- `CASE WHEN t.from_type = 'company' THEN c1.name ELSE u1.name END` with the
LEFT JOIN conditions `c1: from_type='company' AND from_id=c1.id`,
`u1: from_type='user' AND from_id=u1.id`; a cash side resolves to NULL. -/
def resolvedFromName (s : DBState) (t : Tx) : Option String :=
  if t.from_type = "company" then companyName s t.from_id
  else if t.from_type = "user" then userName s t.from_id
  else none

/-- The `to`-side analogue of `resolvedFromName` (joins `c2`, `u2`). -/
def resolvedToName (s : DBState) (t : Tx) : Option String :=
  if t.to_type = "company" then companyName s t.to_id
  else if t.to_type = "user" then userName s t.to_id
  else none

/-! ## Ledger query (`get_transactions_by_entity`, `get_account_ledger`) -/

/-- The WHERE clause of `get_transactions_by_entity`:
`(from_type, from_id) = target OR (to_type, to_id) = target`. -/
def touchesEntity (entity_type : String) (entity_id : Nat) (t : Tx) : Bool :=
  (t.from_type == entity_type && t.from_id == entity_id) ||
  (t.to_type == entity_type && t.to_id == entity_id)

/-- `get_transactions_by_entity`: filter to the touching transactions,
`ORDER BY t.transaction_date DESC` on the raw date string.  SQLite leaves the
relative order of equal dates unspecified; modelled as a stable descending
sort. -/
def get_transactions_by_entity (entity_type : String) (entity_id : Nat) (s : DBState) :
    List Tx :=
  (s.transactions.filter (touchesEntity entity_type entity_id)).insertionSort
    (fun a b => strLe b.transaction_date a.transaction_date = true)

/-- Python sort key of `get_account_ledger`:
`(normalize_date_for_sort(transaction_date), created_date)`. -/
def txSortKey (t : Tx) : String × String :=
  (normalize_date_for_sort t.transaction_date, t.created_date)

/-- Lexicographic comparison of sort keys, as Python compares tuples of
strings. -/
def keyLE (k1 k2 : String × String) : Prop :=
  strLt k1.1 k2.1 = true ∨ (k1.1 = k2.1 ∧ strLe k1.2 k2.2 = true)

instance : DecidableRel keyLE := fun k1 k2 => by
  unfold keyLE
  infer_instance

def txKeyLE (a b : Tx) : Prop := keyLE (txSortKey a) (txSortKey b)

instance : DecidableRel txKeyLE := fun a b => by
  unfold txKeyLE
  infer_instance

/-- One row of the list returned by `get_account_ledger` (the Python dict). -/
structure LedgerEntry where
  id : Nat
  date : String
  type : String
  description : String
  reference : String
  other_party : Option String
  other_party_type : String
  other_party_id : Nat
  amount : ℤ
  running_balance : ℤ
  from_name : Option String
  to_name : Option String
  from_type : String
  to_type : String
  created_date : String
deriving DecidableEq

/-- The ledger entry built for transaction `t` with running balance `rb`
after this entry; `isCredit` is the `to`-side test, checked first. -/
def mkLedgerEntry (s : DBState) (t : Tx) (isCredit : Bool) (rb : ℤ) : LedgerEntry :=
  if isCredit then
    { id := t.id, date := t.transaction_date, type := "Credit",
      description := t.description, reference := t.reference,
      other_party := if t.from_type ≠ "cash" then resolvedFromName s t else some "Cash Deposit",
      other_party_type := t.from_type, other_party_id := t.from_id,
      amount := t.amount, running_balance := rb,
      from_name := resolvedFromName s t, to_name := resolvedToName s t,
      from_type := t.from_type, to_type := t.to_type, created_date := t.created_date }
  else
    { id := t.id, date := t.transaction_date, type := "Debit",
      description := t.description, reference := t.reference,
      other_party := if t.to_type ≠ "cash" then resolvedToName s t else some "Cash Withdrawal",
      other_party_type := t.to_type, other_party_id := t.to_id,
      amount := t.amount, running_balance := rb,
      from_name := resolvedFromName s t, to_name := resolvedToName s t,
      from_type := t.from_type, to_type := t.to_type, created_date := t.created_date }

/-- The accumulation loop of `get_account_ledger`: walk the sorted
transactions with a running balance starting from `rb`, crediting when the
target is the `to` side (checked first) and debiting otherwise. -/
def ledgerScan (s : DBState) (entity_type : String) (entity_id : Nat) :
    ℤ → List Tx → List LedgerEntry
  | _, [] => []
  | rb, t :: ts =>
    let isCredit := t.to_type == entity_type && t.to_id == entity_id
    let rb1 := if isCredit then rb + t.amount else rb - t.amount
    mkLedgerEntry s t isCredit rb1 :: ledgerScan s entity_type entity_id rb1 ts

/-- `get_account_ledger`: fetch the touching transactions, re-sort ascending
by `(normalize_date_for_sort date, created_date)` with Python's stable sort,
accumulate the running balance from 0, and reverse so the newest entry is
first. -/
def get_account_ledger (entity_type : String) (entity_id : Nat) (s : DBState) :
    List LedgerEntry :=
  (ledgerScan s entity_type entity_id 0
    ((get_transactions_by_entity entity_type entity_id s).insertionSort txKeyLE)).reverse

/-! ## Search (`search_transactions`, the later definition in the class body,
which shadows the earlier one that took a `limit`) -/

/-- Whether `pat` occurs at the start of `hay` (character lists). -/
def charsStartWith : List Char → List Char → Bool
  | [], _ => true
  | _ :: _, [] => false
  | a :: as, b :: bs => a == b && charsStartWith as bs

/-- Whether `pat` occurs anywhere inside `hay` (character lists). -/
def charsContain (pat : List Char) : List Char → Bool
  | [] => pat.isEmpty
  | c :: cs => charsStartWith pat (c :: cs) || charsContain pat cs

/-- SQLite `col LIKE '%term%'`: case-insensitive (ASCII) substring test. -/
def likeContains (hay term : String) : Bool :=
  charsContain (lowerStr term) (lowerStr hay)

/-- `LIKE` on a possibly-NULL column: NULL matches nothing. -/
def likeOpt (hay : Option String) (term : String) : Bool :=
  match hay with
  | none => false
  | some h => likeContains h term

/-- The `c1.name` column: joined only when the from side is a company. -/
def c1name (s : DBState) (t : Tx) : Option String :=
  if t.from_type = "company" then companyName s t.from_id else none

/-- The `u1.name` column: joined only when the from side is a user. -/
def u1name (s : DBState) (t : Tx) : Option String :=
  if t.from_type = "user" then userName s t.from_id else none

/-- The `c2.name` column: joined only when the to side is a company. -/
def c2name (s : DBState) (t : Tx) : Option String :=
  if t.to_type = "company" then companyName s t.to_id else none

/-- The `u2.name` column: joined only when the to side is a user. -/
def u2name (s : DBState) (t : Tx) : Option String :=
  if t.to_type = "user" then userName s t.to_id else none

/-- The effective `search_transactions(search_term)` (second definition in
`db_manager.py`, which shadows the earlier limited one): matches description,
reference, or any of the four joined name columns, `ORDER BY
transaction_date DESC` (stable determinization of the SQLite tie order), no
LIMIT; rows come with the two resolved display names. -/
def search_transactions (term : String) (s : DBState) :
    List (Tx × Option String × Option String) :=
  (((s.transactions.filter (fun t =>
        likeContains t.description term || likeContains t.reference term ||
        likeOpt (c1name s t) term || likeOpt (u1name s t) term ||
        likeOpt (c2name s t) term || likeOpt (u2name s t) term)).insertionSort
      (fun a b => strLe b.transaction_date a.transaction_date = true)).map
    (fun t => (t, resolvedFromName s t, resolvedToName s t)))

/-! ## Specification-side definitions (from the claims' words) -/

/-- Sum of amounts of the present transactions crediting the party. -/
def credits (l : List Tx) (entity_type : String) (entity_id : Nat) : ℤ :=
  ((l.filter (fun t => t.to_type == entity_type && t.to_id == entity_id)).map Tx.amount).sum

/-- Sum of amounts of the present transactions debiting the party. -/
def debits (l : List Tx) (entity_type : String) (entity_id : Nat) : ℤ :=
  ((l.filter (fun t => t.from_type == entity_type && t.from_id == entity_id)).map Tx.amount).sum

/-- Net position of a party over the present transactions: credits − debits. -/
def entityNet (l : List Tx) (entity_type : String) (entity_id : Nat) : ℤ :=
  credits l entity_type entity_id - debits l entity_type entity_id

/-- The core correctness property: every stored balance equals the party's
net position over the currently present transactions. -/
def balancesConsistent (s : DBState) : Prop :=
  (∀ c ∈ s.companies, c.balance = entityNet s.transactions "company" c.id) ∧
  (∀ u ∈ s.users, u.balance = entityNet s.transactions "user" u.id)

/-- Schema well-formedness maintained by SQLite `AUTOINCREMENT`: all
transaction ids are below the next id to be assigned, and are distinct. -/
def wfState (s : DBState) : Prop :=
  (∀ t ∈ s.transactions, t.id < s.nextTxId) ∧ (s.transactions.map Tx.id).Nodup

/-- One ledger-mutating call of the kinds quantified over by the balance
invariant.  `now` stands for the wall clock read by the Python code. -/
inductive LedgerOp where
  | record (now date : String) (amount : ℤ) (from_type : String) (from_id : Nat)
      (to_type : String) (to_id : Nat) (description reference : String)
  | dep (now : String) (entity_type : String) (entity_id : Nat) (amount : ℤ)
      (description : String)
  | wd (now : String) (entity_type : String) (entity_id : Nat) (amount : ℤ)
      (description : String)
  | del (transaction_id : Nat)

/-- Resulting state of one call, `none` when the call raises. -/
def runOp (op : LedgerOp) (s : DBState) : Option DBState :=
  match op with
  | .record now d a ft fi tt ti de re =>
    ((add_transaction now d a ft fi tt ti de re s).toOption).map (fun p => p.2)
  | .dep now et ei a de => ((deposit now et ei a de s).toOption).map (fun p => p.2)
  | .wd now et ei a de => ((withdraw now et ei a de s).toOption).map (fun p => p.2)
  | .del tid => some (delete_transaction tid s).2

/-- Run a sequence of calls; `some` exactly when every call succeeds. -/
def runOps (ops : List LedgerOp) (s : DBState) : Option DBState :=
  match ops with
  | [] => some s
  | op :: rest =>
    match runOp op s with
    | none => none
    | some s1 => runOps rest s1

/-! ## Small facts about the balance dispatch -/

lemma adjustBalance_cash (pid : Nat) (amt : ℤ) (s : DBState) :
    adjustBalance "cash" pid amt s = s := by
  unfold adjustBalance
  rw [if_neg (by decide), if_neg (by decide)]

lemma adjustBalance_transactions (ty : String) (pid : Nat) (amt : ℤ) (s : DBState) :
    (adjustBalance ty pid amt s).transactions = s.transactions := by
  unfold adjustBalance
  split_ifs <;> rfl

lemma adjustBalance_nextTxId (ty : String) (pid : Nat) (amt : ℤ) (s : DBState) :
    (adjustBalance ty pid amt s).nextTxId = s.nextTxId := by
  unfold adjustBalance
  split_ifs <;> rfl

lemma adjustBalanceElse_eq (ty : String) (pid : Nat) (amt : ℤ) (s : DBState)
    (h : ty = "company" ∨ ty = "user") :
    adjustBalanceElse ty pid amt s = adjustBalance ty pid amt s := by
  rcases h with h | h <;> subst h <;> rfl

/-! ## C7: date normalisation is total and returns unparseable strings unchanged -/

/-- C7 (amended): `normalize_date_for_sort` is pure and total (it is a plain
Lean function), and every string that does not parse as `%d-%m-%Y` —
including valid `%Y-%m-%d` dates and arbitrary garbage — is returned
unchanged; only the empty input yields the empty key. -/
theorem normalize_date_unparseable (str : String) (h : parsesDateDMY str = false) :
    normalize_date_for_sort str = str := by
  unfold normalize_date_for_sort
  unfold parsesDateDMY at h
  by_cases he : str = ""
  · rw [if_pos he, he]
  · rw [if_neg he]
    rcases hs : splitDash str with _ | ⟨p1, _ | ⟨p2, _ | ⟨p3, _ | ⟨p4, rest⟩⟩⟩⟩ <;> simp_all

/-- C7 witness: the unparseable string `"pending"` is returned unchanged. -/
theorem normalize_date_unparseable_witness :
    parsesDateDMY "pending" = false ∧ normalize_date_for_sort "pending" = "pending" :=
  ⟨by decide, normalize_date_unparseable "pending" (by decide)⟩

/-- C7 counterexample: the unparseable string `"hello"` is mapped to itself,
not to the empty/lowest sort key — it even sorts strictly above the largest
valid normalized date. -/
theorem normalize_date_garbage_not_lowest_cex :
    normalize_date_for_sort "hello" = "hello" ∧ "hello" ≠ "" ∧
    strLt (normalize_date_for_sort "31-12-9999") (normalize_date_for_sort "hello") = true :=
  ⟨rfl, by decide, by decide⟩

/-! ## Concrete states shared by several claims -/

/-- One company `Acme` (id 1, balance 0), no users, no transactions. -/
def acmeState : DBState :=
  { companies := [⟨1, "Acme", "", "", "", 0⟩], users := [], transactions := [],
    nextCompanyId := 2, nextUserId := 1, nextTxId := 1 }

/-! ## C2: validation in `add_transaction` -/

/-- C2 (amended): `add_transaction` fails with a `ValueError` and performs no
write whenever the amount is non-positive or a side's kind is outside
`{company, user}`; it does not compare the from side with the to side. -/
theorem add_transaction_rejects_invalid (now dt : String) (a : ℤ) (ft : String) (fi : Nat)
    (tt : String) (ti : Nat) (de re : String) (s : DBState)
    (h : a ≤ 0 ∨ ¬ (ft = "company" ∨ ft = "user") ∨ ¬ (tt = "company" ∨ tt = "user")) :
    ∃ msg, add_transaction now dt a ft fi tt ti de re s = .error (.validationError msg) := by
  unfold add_transaction
  by_cases h1 : a ≤ 0
  · exact ⟨"Transaction amount must be positive", by rw [if_pos h1]⟩
  · have h2 : ¬ (ft = "company" ∨ ft = "user") ∨ ¬ (tt = "company" ∨ tt = "user") := by
      rcases h with h | h
      · exact absurd h h1
      · exact h
    exact ⟨"Transaction type must be company or user", by rw [if_neg h1, if_pos h2]⟩

/-- C2 witness: a zero amount is rejected with a validation error. -/
theorem add_transaction_rejects_invalid_witness :
    ∃ msg, add_transaction "ts" "01-01-2024" 0 "company" 1 "user" 2 "" "" acmeState =
      .error (.validationError msg) :=
  add_transaction_rejects_invalid "ts" "01-01-2024" 0 "company" 1 "user" 2 "" "" acmeState
    (Or.inl (le_refl 0))

/-- Result of recording a self-transaction on `acmeState`: the row is
inserted and the debit and credit cancel on the single balance. -/
def selfTradeResult : DBState :=
  { companies := [⟨1, "Acme", "", "", "", 0⟩], users := [],
    transactions := [⟨1, "01-01-2024", 5, "company", 1, "company", 1, "loop", "", "ts"⟩],
    nextCompanyId := 2, nextUserId := 1, nextTxId := 2 }

/-- C2 counterexample: a transaction whose from side and to side are the very
same `(company, 1)` pair succeeds — no validation error is raised and a row
is written. -/
theorem add_transaction_same_party_cex :
    add_transaction "ts" "01-01-2024" 5 "company" 1 "company" 1 "loop" "" acmeState =
      .ok (1, selfTradeResult) :=
  rfl

/-! ## C4: withdraw beyond the balance -/

/-- C4 (amended): for every existing party and every positive amount strictly
above the stored balance, `withdraw` fails with the insufficient-balance
error carrying both the current balance and the requested amount, before any
write; a non-positive amount is instead rejected by the amount validation. -/
theorem withdraw_insufficient_error (now et : String) (ei : Nat) (a : ℤ) (de : String)
    (s : DBState) (b : ℤ) (htype : et = "company" ∨ et = "user")
    (hbal : entityBalance et ei s = some b) (hpos : 0 < a) (hlt : b < a) :
    withdraw now et ei a de s = .error (.insufficientBalance b a) := by
  unfold withdraw
  rw [if_neg (not_le.mpr hpos), if_neg (not_not_intro htype), hbal]
  exact if_pos hlt

/-- Company `Acme` with stored balance 2. -/
def lowBalanceState : DBState :=
  { companies := [⟨1, "Acme", "", "", "", 2⟩], users := [], transactions := [],
    nextCompanyId := 2, nextUserId := 1, nextTxId := 1 }

/-- C4 witness: withdrawing 5 from a balance of 2 raises the
insufficient-balance error carrying (2, 5). -/
theorem withdraw_insufficient_error_witness :
    withdraw "ts" "company" 1 5 "w" lowBalanceState = .error (.insufficientBalance 2 5) :=
  withdraw_insufficient_error "ts" "company" 1 5 "w" lowBalanceState 2 (Or.inl rfl) rfl
    (by decide) (by decide)

/-- Company `Acme` with stored balance −5 (reachable: outgoing transactions
drive balances negative). -/
def negBalanceState : DBState :=
  { companies := [⟨1, "Acme", "", "", "", -5⟩], users := [], transactions := [],
    nextCompanyId := 2, nextUserId := 1, nextTxId := 1 }

/-- C4 counterexample: the amount −1 is strictly greater than the stored
balance −5, yet `withdraw` raises the amount-validation error, not the
insufficient-balance error carrying both values. -/
theorem withdraw_above_balance_not_insufficient_cex :
    entityBalance "company" 1 negBalanceState = some (-5) ∧ ((-5 : ℤ) < -1) ∧
    withdraw "ts" "company" 1 (-1) "w" negBalanceState =
      .error (.validationError "Withdrawal amount must be positive") :=
  ⟨rfl, by decide, rfl⟩

/-! ## C8: uniqueness constraints on party creation -/

/-- C8 (amended): `add_user` succeeds unconditionally with a fresh surrogate
id — duplicate or blank names and emails are allowed — and `add_company`
imposes no constraint on email, but rejects a duplicate company name
(`companies.name` is UNIQUE); with a fresh name it succeeds with a fresh id. -/
theorem party_creation_constraints (s : DBState) (nm ad ph em : String)
    (un ue ur ud : String) (cid : Option Nat)
    (hname : ∀ c ∈ s.companies, c.name ≠ nm) :
    add_company nm ad ph em s = .ok (s.nextCompanyId,
      { s with companies := s.companies ++ [⟨s.nextCompanyId, nm, ad, ph, em, 0⟩],
               nextCompanyId := s.nextCompanyId + 1 }) ∧
    add_user un ue ur ud cid s = .ok (s.nextUserId,
      { s with users := s.users ++ [⟨s.nextUserId, cid, un, ue, ur, ud, 0⟩],
               nextUserId := s.nextUserId + 1 }) := by
  constructor
  · have hany : ¬ (s.companies.any (fun c => c.name == nm) = true) := by
      simp only [List.any_eq_true, beq_iff_eq, not_exists, not_and]
      exact hname
    unfold add_company
    rw [if_neg hany]
  · rfl

/-- C8 witness: with one company `Acme` present, a company with the fresh
name `Beta` (blank email) and a user duplicating the name `Acme` with a
blank email are both created with fresh surrogate ids. -/
theorem party_creation_constraints_witness :
    add_company "Beta" "" "" "" acmeState = .ok (acmeState.nextCompanyId,
      { acmeState with
        companies := acmeState.companies ++ [⟨acmeState.nextCompanyId, "Beta", "", "", "", 0⟩],
        nextCompanyId := acmeState.nextCompanyId + 1 }) ∧
    add_user "Acme" "" "" "" none acmeState = .ok (acmeState.nextUserId,
      { acmeState with
        users := acmeState.users ++ [⟨acmeState.nextUserId, none, "Acme", "", "", "", 0⟩],
        nextUserId := acmeState.nextUserId + 1 }) :=
  party_creation_constraints acmeState "Beta" "" "" "" "Acme" "" "" "" none (by decide)

/-- C8 counterexample: adding a second company with the identical name
`Acme` fails with the UNIQUE-constraint integrity error instead of
succeeding. -/
theorem add_company_duplicate_name_cex :
    add_company "Acme" "" "" "other@acme.example" acmeState =
      .error (.integrityError "UNIQUE constraint failed: companies.name") :=
  rfl

/-! ## C3: bulk deletion is not atomic -/

/-- Two transactions from `Acme` to `John` and the consistent balances. -/
def bulkState : DBState :=
  { companies := [⟨1, "Acme", "", "", "", -8⟩],
    users := [⟨2, none, "John", "", "", "", 8⟩],
    transactions :=
      [⟨1, "01-01-2024", 5, "company", 1, "user", 2, "salary", "", "t1"⟩,
       ⟨2, "02-01-2024", 3, "company", 1, "user", 2, "bonus", "", "t2"⟩],
    nextCompanyId := 2, nextUserId := 3, nextTxId := 3 }

/-- C3: every statement inside the `delete_multiple_transactions` loop runs
with `auto_commit=True`, so a failure after the first id leaves that id's
deletion and balance reversal durably committed — the terminal `rollback()`
restores nothing, contradicting the all-or-nothing contract.  The skipping of
unresolved ids and the returned count do behave as claimed: deleting
`[1, 99, 2]` skips 99 and reports 2. -/
theorem bulk_delete_commits_partially :
    delete_multiple_aborted [1, 2] 1 bulkState ≠ bulkState ∧
    (delete_multiple_aborted [1, 2] 1 bulkState).transactions.map Tx.id = [2] ∧
    (delete_multiple_transactions [1, 99, 2] bulkState).1 = 2 :=
  ⟨by decide, by decide, by decide⟩

/-! ## Pointwise characterisation of the balance dispatch -/

lemma adjustBalance_companies (ty : String) (pid : Nat) (amt : ℤ) (s : DBState) :
    (adjustBalance ty pid amt s).companies =
      s.companies.map (fun c =>
        if ty = "company" ∧ pid = c.id then { c with balance := c.balance + amt } else c) := by
  by_cases h1 : ty = "company"
  · have hs : adjustBalance ty pid amt s =
        { s with companies := update_company_balance pid amt s.companies } := by
      unfold adjustBalance
      rw [if_pos h1]
    rw [hs]
    show update_company_balance pid amt s.companies = _
    unfold update_company_balance
    apply List.map_congr_left
    intro c _
    by_cases h2 : c.id = pid
    · rw [if_pos h2, if_pos ⟨h1, h2.symm⟩]
    · rw [if_neg h2, if_neg (fun h => h2 h.2.symm)]
  · have hc : (adjustBalance ty pid amt s).companies = s.companies := by
      unfold adjustBalance
      rw [if_neg h1]
      split_ifs <;> rfl
    rw [hc]
    have h3 : s.companies.map (fun c =>
        if ty = "company" ∧ pid = c.id then { c with balance := c.balance + amt } else c) =
        s.companies.map (fun c => c) :=
      List.map_congr_left (fun c _ => by rw [if_neg (fun h => h1 h.1)])
    rw [h3, List.map_id']

lemma adjustBalance_users (ty : String) (pid : Nat) (amt : ℤ) (s : DBState) :
    (adjustBalance ty pid amt s).users =
      s.users.map (fun u =>
        if ty = "user" ∧ pid = u.id then { u with balance := u.balance + amt } else u) := by
  by_cases h1 : ty = "user"
  · have hs : adjustBalance ty pid amt s =
        { s with users := update_user_balance pid amt s.users } := by
      unfold adjustBalance
      have h0 : ty ≠ "company" := by
        subst h1
        decide
      rw [if_neg h0, if_pos h1]
    rw [hs]
    show update_user_balance pid amt s.users = _
    unfold update_user_balance
    apply List.map_congr_left
    intro u _
    by_cases h2 : u.id = pid
    · rw [if_pos h2, if_pos ⟨h1, h2.symm⟩]
    · rw [if_neg h2, if_neg (fun h => h2 h.2.symm)]
  · have hc : (adjustBalance ty pid amt s).users = s.users := by
      unfold adjustBalance
      split_ifs <;> rfl
    rw [hc]
    have h3 : s.users.map (fun u =>
        if ty = "user" ∧ pid = u.id then { u with balance := u.balance + amt } else u) =
        s.users.map (fun u => u) :=
      List.map_congr_left (fun u _ => by rw [if_neg (fun h => h1 h.1)])
    rw [h3, List.map_id']

/-! ## C10: deleting a cash-legged transaction touches only the real party -/

/-- C10: for a stored transaction whose from side is the cash sentinel,
`delete_transaction` deletes the row and subtracts the amount from the
to-party's balance only, leaving every other company and user row unchanged
(and there is no stored cash balance to write); symmetrically, when the to
side is cash it only adds the amount back to the from-party. -/
theorem delete_transaction_cash_frame (s : DBState) (tid : Nat) (t : Tx)
    (hfind : s.transactions.find? (fun x => x.id == tid) = some t) :
    (t.from_type = "cash" →
      (delete_transaction tid s).2.transactions = s.transactions.filter (fun x => x.id != tid) ∧
      (delete_transaction tid s).2.companies = s.companies.map (fun c =>
        if t.to_type = "company" ∧ t.to_id = c.id then { c with balance := c.balance - t.amount }
        else c) ∧
      (delete_transaction tid s).2.users = s.users.map (fun u =>
        if t.to_type = "user" ∧ t.to_id = u.id then { u with balance := u.balance - t.amount }
        else u)) ∧
    (t.to_type = "cash" →
      (delete_transaction tid s).2.transactions = s.transactions.filter (fun x => x.id != tid) ∧
      (delete_transaction tid s).2.companies = s.companies.map (fun c =>
        if t.from_type = "company" ∧ t.from_id = c.id then { c with balance := c.balance + t.amount }
        else c) ∧
      (delete_transaction tid s).2.users = s.users.map (fun u =>
        if t.from_type = "user" ∧ t.from_id = u.id then { u with balance := u.balance + t.amount }
        else u)) := by
  have hdel : (delete_transaction tid s).2 =
      (let s2 := adjustBalance t.to_type t.to_id (-t.amount)
        (adjustBalance t.from_type t.from_id t.amount s)
       { s2 with transactions := s2.transactions.filter (fun x => x.id != tid) }) := by
    unfold delete_transaction
    rw [hfind]
  rw [hdel]
  constructor
  · intro hfc
    rw [hfc, adjustBalance_cash]
    refine ⟨?_, ?_, ?_⟩
    · show (adjustBalance t.to_type t.to_id (-t.amount) s).transactions.filter _ = _
      rw [adjustBalance_transactions]
    · show (adjustBalance t.to_type t.to_id (-t.amount) s).companies = _
      rw [adjustBalance_companies]
      apply List.map_congr_left
      intro c _
      by_cases h2 : t.to_type = "company" ∧ t.to_id = c.id
      · rw [if_pos h2, if_pos h2, sub_eq_add_neg]
      · rw [if_neg h2, if_neg h2]
    · show (adjustBalance t.to_type t.to_id (-t.amount) s).users = _
      rw [adjustBalance_users]
      apply List.map_congr_left
      intro u _
      by_cases h2 : t.to_type = "user" ∧ t.to_id = u.id
      · rw [if_pos h2, if_pos h2, sub_eq_add_neg]
      · rw [if_neg h2, if_neg h2]
  · intro htc
    have houter : adjustBalance t.to_type t.to_id (-t.amount)
        (adjustBalance t.from_type t.from_id t.amount s) =
        adjustBalance t.from_type t.from_id t.amount s := by
      rw [htc, adjustBalance_cash]
    rw [houter]
    refine ⟨?_, ?_, ?_⟩
    · show (adjustBalance t.from_type t.from_id t.amount s).transactions.filter _ = _
      rw [adjustBalance_transactions]
    · show (adjustBalance t.from_type t.from_id t.amount s).companies = _
      rw [adjustBalance_companies]
    · show (adjustBalance t.from_type t.from_id t.amount s).users = _
      rw [adjustBalance_users]

/-- A cash deposit of 5 into company `Acme` (balance 5), plus an unrelated
company `Gamma` and user `John`. -/
def cashDepositState : DBState :=
  { companies := [⟨1, "Acme", "", "", "", 5⟩, ⟨3, "Gamma", "", "", "", 7⟩],
    users := [⟨2, none, "John", "", "", "", 4⟩],
    transactions := [⟨1, "01-01-2024", 5, "cash", 0, "company", 1, "seed", "DEPOSIT", "ts"⟩],
    nextCompanyId := 4, nextUserId := 3, nextTxId := 2 }

/-- C10 witness: deleting the cash deposit subtracts 5 from `Acme` only;
`Gamma` and `John` keep their balances and the row is gone. -/
theorem delete_transaction_cash_frame_witness :
    cashDepositState.transactions.find? (fun x => x.id == 1) =
      some ⟨1, "01-01-2024", 5, "cash", 0, "company", 1, "seed", "DEPOSIT", "ts"⟩ ∧
    (delete_transaction 1 cashDepositState).2.transactions = [] ∧
    (delete_transaction 1 cashDepositState).2.companies =
      [⟨1, "Acme", "", "", "", 0⟩, ⟨3, "Gamma", "", "", "", 7⟩] ∧
    (delete_transaction 1 cashDepositState).2.users = [⟨2, none, "John", "", "", "", 4⟩] := by
  have h := (delete_transaction_cash_frame cashDepositState 1
    ⟨1, "01-01-2024", 5, "cash", 0, "company", 1, "seed", "DEPOSIT", "ts"⟩ (by decide)).1 rfl
  refine ⟨by decide, ?_, ?_, ?_⟩
  · rw [h.1]
    decide
  · rw [h.2.1]
    decide
  · rw [h.2.2]
    decide

/-! ## C9: search semantics -/

/-- The claim's matching predicate: description, reference, or either
resolved party display name contains the term case-insensitively. -/
def specSearchMatch (s : DBState) (term : String) (t : Tx) : Prop :=
  likeContains t.description term = true ∨ likeContains t.reference term = true ∨
  (∃ n, resolvedFromName s t = some n ∧ likeContains n term = true) ∨
  (∃ n, resolvedToName s t = some n ∧ likeContains n term = true)

lemma likeOpt_from_iff (s : DBState) (t : Tx) (term : String) :
    (likeOpt (c1name s t) term = true ∨ likeOpt (u1name s t) term = true) ↔
      ∃ n, resolvedFromName s t = some n ∧ likeContains n term = true := by
  unfold c1name u1name resolvedFromName
  by_cases hc : t.from_type = "company"
  · have hcu : ¬ t.from_type = "user" := by
      rw [hc]
      decide
    rw [if_pos hc, if_pos hc, if_neg hcu]
    cases hn : companyName s t.from_id with
    | none => simp [likeOpt]
    | some n => simp [likeOpt]
  · rw [if_neg hc, if_neg hc]
    by_cases hu : t.from_type = "user"
    · rw [if_pos hu]
      cases hn : userName s t.from_id with
      | none => simp [likeOpt]
      | some n => simp [likeOpt]
    · rw [if_neg hu]
      simp [likeOpt]

lemma likeOpt_to_iff (s : DBState) (t : Tx) (term : String) :
    (likeOpt (c2name s t) term = true ∨ likeOpt (u2name s t) term = true) ↔
      ∃ n, resolvedToName s t = some n ∧ likeContains n term = true := by
  unfold c2name u2name resolvedToName
  by_cases hc : t.to_type = "company"
  · have hcu : ¬ t.to_type = "user" := by
      rw [hc]
      decide
    rw [if_pos hc, if_pos hc, if_neg hcu]
    cases hn : companyName s t.to_id with
    | none => simp [likeOpt]
    | some n => simp [likeOpt]
  · rw [if_neg hc, if_neg hc]
    by_cases hu : t.to_type = "user"
    · rw [if_pos hu]
      cases hn : userName s t.to_id with
      | none => simp [likeOpt]
      | some n => simp [likeOpt]
    · rw [if_neg hu]
      simp [likeOpt]

/-- C9 (amended): the effective `search_transactions` returns exactly the
transactions whose description, reference, or either resolved party display
name contains the term case-insensitively — with no result limit (the
earlier definition taking a limit is shadowed by this one). -/
theorem search_transactions_members (s : DBState) (term : String) (t : Tx) :
    t ∈ (search_transactions term s).map (fun r => r.1) ↔
      t ∈ s.transactions ∧ specSearchMatch s term t := by
  unfold search_transactions
  rw [List.map_map]
  have h1 : ((fun r : Tx × Option String × Option String => r.1) ∘
      fun t => (t, resolvedFromName s t, resolvedToName s t)) = fun t => t := rfl
  rw [h1, List.map_id']
  rw [(List.perm_insertionSort
        (fun a b : Tx => strLe b.transaction_date a.transaction_date = true) _).mem_iff,
      List.mem_filter]
  apply and_congr_right
  intro _
  have hfrom := likeOpt_from_iff s t term
  have hto := likeOpt_to_iff s t term
  simp only [Bool.or_eq_true]
  unfold specSearchMatch
  constructor
  · rintro (((((h | h) | h) | h) | h) | h)
    · exact Or.inl h
    · exact Or.inr (Or.inl h)
    · exact Or.inr (Or.inr (Or.inl (hfrom.mp (Or.inl h))))
    · exact Or.inr (Or.inr (Or.inl (hfrom.mp (Or.inr h))))
    · exact Or.inr (Or.inr (Or.inr (hto.mp (Or.inl h))))
    · exact Or.inr (Or.inr (Or.inr (hto.mp (Or.inr h))))
  · rintro (h | h | hF | hT)
    · exact Or.inl (Or.inl (Or.inl (Or.inl (Or.inl h))))
    · exact Or.inl (Or.inl (Or.inl (Or.inl (Or.inr h))))
    · rcases hfrom.mpr hF with h | h
      · exact Or.inl (Or.inl (Or.inl (Or.inr h)))
      · exact Or.inl (Or.inl (Or.inr h))
    · rcases hto.mpr hT with h | h
      · exact Or.inl (Or.inr h)
      · exact Or.inr h

/-- 101 transactions whose description contains `apple`. -/
def manyMatchState : DBState :=
  { companies := [], users := [],
    transactions := (List.range 101).map (fun i =>
      ⟨i + 1, "01-01-2024", 1, "company", 1, "user", 2, "apple pie", "", "ts"⟩),
    nextCompanyId := 1, nextUserId := 1, nextTxId := 102 }

/-- C9 counterexample: the effective search is unbounded — 101 matching
transactions are all returned, exceeding the shadowed definition's default
limit of 100, so no optional result limit bounds the result. -/
theorem search_transactions_no_limit_cex :
    (search_transactions "apple" manyMatchState).length = 101 ∧
    100 < (search_transactions "apple" manyMatchState).length :=
  ⟨by decide, by decide⟩

/-! ## Order facts for the lexicographic string comparison -/

lemma charListLt_trans (as : List Char) : ∀ bs cs, charListLt as bs = true →
    charListLt bs cs = true → charListLt as cs = true := by
  induction as with
  | nil =>
    intro bs cs h1 h2
    cases bs with
    | nil => simp [charListLt] at h1
    | cons b bs =>
      cases cs with
      | nil => simp [charListLt] at h2
      | cons c cs => simp [charListLt]
  | cons a as ih =>
    intro bs cs h1 h2
    cases bs with
    | nil => simp [charListLt] at h1
    | cons b bs =>
      cases cs with
      | nil => simp [charListLt] at h2
      | cons c cs =>
        simp only [charListLt, Bool.or_eq_true, Bool.and_eq_true, beq_iff_eq,
          decide_eq_true_eq] at h1 h2 ⊢
        rcases h1 with h1 | ⟨hab, h1⟩
        · rcases h2 with h2 | ⟨hbc, h2⟩
          · exact Or.inl (lt_trans h1 h2)
          · exact Or.inl (by rw [← hbc]; exact h1)
        · rcases h2 with h2 | ⟨hbc, h2⟩
          · exact Or.inl (by rw [hab]; exact h2)
          · exact Or.inr ⟨hab.trans hbc, ih bs cs h1 h2⟩

lemma charListLt_total (as : List Char) : ∀ bs,
    charListLt as bs = true ∨ as = bs ∨ charListLt bs as = true := by
  induction as with
  | nil =>
    intro bs
    cases bs with
    | nil => exact Or.inr (Or.inl rfl)
    | cons b bs => exact Or.inl (by simp [charListLt])
  | cons a as ih =>
    intro bs
    cases bs with
    | nil => exact Or.inr (Or.inr (by simp [charListLt]))
    | cons b bs =>
      rcases lt_trichotomy a b with h | h | h
      · refine Or.inl ?_
        simp only [charListLt, Bool.or_eq_true, Bool.and_eq_true, beq_iff_eq,
          decide_eq_true_eq]
        exact Or.inl h
      · rcases ih bs with h2 | h2 | h2
        · refine Or.inl ?_
          simp only [charListLt, Bool.or_eq_true, Bool.and_eq_true, beq_iff_eq,
            decide_eq_true_eq]
          exact Or.inr ⟨h, h2⟩
        · exact Or.inr (Or.inl (by rw [h, h2]))
        · refine Or.inr (Or.inr ?_)
          simp only [charListLt, Bool.or_eq_true, Bool.and_eq_true, beq_iff_eq,
            decide_eq_true_eq]
          exact Or.inr ⟨h.symm, h2⟩
      · refine Or.inr (Or.inr ?_)
        simp only [charListLt, Bool.or_eq_true, Bool.and_eq_true, beq_iff_eq,
          decide_eq_true_eq]
        exact Or.inl h

lemma strLt_trans {a b c : String} (h1 : strLt a b = true) (h2 : strLt b c = true) :
    strLt a c = true :=
  charListLt_trans a.data b.data c.data h1 h2

lemma strLt_total (a b : String) : strLt a b = true ∨ a = b ∨ strLt b a = true := by
  rcases charListLt_total a.data b.data with h | h | h
  · exact Or.inl h
  · exact Or.inr (Or.inl (String.ext h))
  · exact Or.inr (Or.inr h)

lemma strLe_trans {a b c : String} (h1 : strLe a b = true) (h2 : strLe b c = true) :
    strLe a c = true := by
  simp only [strLe, Bool.or_eq_true, beq_iff_eq] at h1 h2 ⊢
  rcases h1 with h1 | h1
  · rcases h2 with h2 | h2
    · exact Or.inl (strLt_trans h1 h2)
    · exact Or.inl (by rw [← h2]; exact h1)
  · rcases h2 with h2 | h2
    · exact Or.inl (by rw [h1]; exact h2)
    · exact Or.inr (h1.trans h2)

lemma strLe_total (a b : String) : strLe a b = true ∨ strLe b a = true := by
  rcases strLt_total a b with h | h | h
  · exact Or.inl (by simp [strLe, h])
  · exact Or.inl (by simp [strLe, h])
  · exact Or.inr (by simp [strLe, h])

lemma keyLE_total (k1 k2 : String × String) : keyLE k1 k2 ∨ keyLE k2 k1 := by
  unfold keyLE
  rcases strLt_total k1.1 k2.1 with h | h | h
  · exact Or.inl (Or.inl h)
  · rcases strLe_total k1.2 k2.2 with h2 | h2
    · exact Or.inl (Or.inr ⟨h, h2⟩)
    · exact Or.inr (Or.inr ⟨h.symm, h2⟩)
  · exact Or.inr (Or.inl h)

lemma keyLE_trans {k1 k2 k3 : String × String} (h12 : keyLE k1 k2) (h23 : keyLE k2 k3) :
    keyLE k1 k3 := by
  unfold keyLE at *
  rcases h12 with h12 | ⟨e12, l12⟩
  · rcases h23 with h23 | ⟨e23, l23⟩
    · exact Or.inl (strLt_trans h12 h23)
    · exact Or.inl (by rw [← e23]; exact h12)
  · rcases h23 with h23 | ⟨e23, l23⟩
    · exact Or.inl (by rw [e12]; exact h23)
    · exact Or.inr ⟨e12.trans e23, strLe_trans l12 l23⟩

instance : IsTotal Tx txKeyLE := ⟨fun a b => keyLE_total (txSortKey a) (txSortKey b)⟩

instance : IsTrans Tx txKeyLE := ⟨fun _ _ _ => keyLE_trans⟩

/-! ## C6: the account ledger statement -/

/-- Sort key recomputed from a ledger entry's own fields. -/
def entryKey (e : LedgerEntry) : String × String :=
  (normalize_date_for_sort e.date, e.created_date)

/-- Ascending key order on ledger entries. -/
def entryKeyLE (a b : LedgerEntry) : Prop := keyLE (entryKey a) (entryKey b)

/-- The claim-relevant view of a transaction from the target's perspective:
its direction label — `Credit` exactly when the target is the `to` side,
checked before the `from` side — together with the identifying fields. -/
def txView (entity_type : String) (entity_id : Nat) (t : Tx) :
    String × Nat × String × ℤ × String × String × String :=
  (if t.to_type == entity_type && t.to_id == entity_id then "Credit" else "Debit",
   t.id, t.transaction_date, t.amount, t.from_type, t.to_type, t.created_date)

/-- The same view read off a ledger entry. -/
def entryView (e : LedgerEntry) : String × Nat × String × ℤ × String × String × String :=
  (e.type, e.id, e.date, e.amount, e.from_type, e.to_type, e.created_date)

/-- The running-balance recurrence required of a ledger (read oldest-first):
starting from `base`, each entry adds its amount when labelled `Credit` and
subtracts it when labelled `Debit`. -/
def runningOk (base : ℤ) : List LedgerEntry → Prop
  | [] => True
  | e :: es =>
    (e.running_balance = if e.type = "Credit" then base + e.amount else base - e.amount) ∧
    runningOk e.running_balance es

lemma entryKey_mkLedgerEntry (s : DBState) (t : Tx) (b : Bool) (rb : ℤ) :
    entryKey (mkLedgerEntry s t b rb) = txSortKey t := by
  cases b <;> rfl

lemma entryView_mkLedgerEntry (s : DBState) (entity_type : String) (entity_id : Nat)
    (t : Tx) (rb : ℤ) :
    entryView (mkLedgerEntry s t (t.to_type == entity_type && t.to_id == entity_id) rb) =
      txView entity_type entity_id t := by
  cases hc : (t.to_type == entity_type && t.to_id == entity_id) <;>
    simp [mkLedgerEntry, entryView, txView, hc]

lemma ledgerScan_view (s : DBState) (entity_type : String) (entity_id : Nat)
    (ts : List Tx) : ∀ rb,
    (ledgerScan s entity_type entity_id rb ts).map entryView =
      ts.map (txView entity_type entity_id) := by
  induction ts with
  | nil => intro rb; rfl
  | cons t ts ih =>
    intro rb
    show entryView (mkLedgerEntry s t _ _) :: (ledgerScan s entity_type entity_id _ ts).map entryView = _
    rw [ih, entryView_mkLedgerEntry]
    rfl

lemma mem_ledgerScan_key (s : DBState) (entity_type : String) (entity_id : Nat)
    {e : LedgerEntry} (ts : List Tx) : ∀ rb, e ∈ ledgerScan s entity_type entity_id rb ts →
    ∃ t ∈ ts, entryKey e = txSortKey t := by
  induction ts with
  | nil => intro rb h; cases h
  | cons t ts ih =>
    intro rb h
    rcases List.mem_cons.mp h with he | he
    · exact ⟨t, List.mem_cons_self t ts, by rw [he, entryKey_mkLedgerEntry]⟩
    · rcases ih _ he with ⟨u, hu, hk⟩
      exact ⟨u, List.mem_cons_of_mem t hu, hk⟩

lemma pairwise_ledgerScan (s : DBState) (entity_type : String) (entity_id : Nat)
    (ts : List Tx) : ∀ rb, List.Pairwise txKeyLE ts →
    List.Pairwise entryKeyLE (ledgerScan s entity_type entity_id rb ts) := by
  induction ts with
  | nil => intro rb _; exact List.Pairwise.nil
  | cons t ts ih =>
    intro rb h
    rw [List.pairwise_cons] at h
    refine List.Pairwise.cons ?_ (ih _ h.2)
    intro e he
    rcases mem_ledgerScan_key s entity_type entity_id ts _ he with ⟨u, hu, hk⟩
    show keyLE (entryKey _) (entryKey e)
    rw [entryKey_mkLedgerEntry, hk]
    exact h.1 u hu

lemma runningOk_ledgerScan (s : DBState) (entity_type : String) (entity_id : Nat)
    (ts : List Tx) : ∀ rb, runningOk rb (ledgerScan s entity_type entity_id rb ts) := by
  induction ts with
  | nil => intro rb; trivial
  | cons t ts ih =>
    intro rb
    refine ⟨?_, ?_⟩
    · cases hc : (t.to_type == entity_type && t.to_id == entity_id) <;>
        simp [mkLedgerEntry, hc]
    · cases hc : (t.to_type == entity_type && t.to_id == entity_id) <;>
        simpa [mkLedgerEntry, hc] using ih _

/-- C6: the oldest-first reading of `get_account_ledger` (its reverse) is a
permutation of the claim-relevant view of exactly the transactions touching
the target (each labelled `Credit` precisely when the target is the `to`
side, checked first), it is sorted ascending by
`(normalize_date_for_sort date, created_timestamp)`, and its running
balances accumulate from 0, adding `Credit` amounts and subtracting `Debit`
amounts; `get_account_ledger` itself is the reversal of that sequence, so
the newest entry comes first. -/
theorem account_ledger_correct (entity_type : String) (entity_id : Nat) (s : DBState) :
    List.Perm ((get_account_ledger entity_type entity_id s).reverse.map entryView)
      ((s.transactions.filter (touchesEntity entity_type entity_id)).map
        (txView entity_type entity_id)) ∧
    List.Pairwise entryKeyLE (get_account_ledger entity_type entity_id s).reverse ∧
    runningOk 0 (get_account_ledger entity_type entity_id s).reverse := by
  unfold get_account_ledger
  rw [List.reverse_reverse]
  refine ⟨?_, ?_, ?_⟩
  · rw [ledgerScan_view]
    unfold get_transactions_by_entity
    exact ((List.perm_insertionSort txKeyLE _).map _).trans
      ((List.perm_insertionSort _ _).map _)
  · exact pairwise_ledgerScan s entity_type entity_id _ 0
      (List.sorted_insertionSort txKeyLE _)
  · exact runningOk_ledgerScan s entity_type entity_id _ 0

/-! ## Net-position bookkeeping lemmas -/

/-- Signed contribution of one transaction to a party's net position. -/
def txContrib (entity_type : String) (entity_id : Nat) (t : Tx) : ℤ :=
  (if t.to_type = entity_type ∧ t.to_id = entity_id then t.amount else 0) -
  (if t.from_type = entity_type ∧ t.from_id = entity_id then t.amount else 0)

lemma touch_to_iff (t : Tx) (et : String) (ei : Nat) :
    (t.to_type == et && t.to_id == ei) = true ↔ (t.to_type = et ∧ t.to_id = ei) := by
  simp

lemma touch_from_iff (t : Tx) (et : String) (ei : Nat) :
    (t.from_type == et && t.from_id == ei) = true ↔ (t.from_type = et ∧ t.from_id = ei) := by
  simp

lemma entityNet_cons (t : Tx) (ts : List Tx) (et : String) (ei : Nat) :
    entityNet (t :: ts) et ei = txContrib et ei t + entityNet ts et ei := by
  unfold entityNet credits debits txContrib
  rw [List.filter_cons, List.filter_cons]
  by_cases h1 : t.to_type = et ∧ t.to_id = ei <;>
    by_cases h2 : t.from_type = et ∧ t.from_id = ei
  · rw [if_pos ((touch_to_iff t et ei).mpr h1), if_pos ((touch_from_iff t et ei).mpr h2),
      if_pos h1, if_pos h2]
    simp only [List.map_cons, List.sum_cons]
    ring
  · rw [if_pos ((touch_to_iff t et ei).mpr h1),
      if_neg (fun hb => h2 ((touch_from_iff t et ei).mp hb)), if_pos h1, if_neg h2]
    simp only [List.map_cons, List.sum_cons]
    ring
  · rw [if_neg (fun hb => h1 ((touch_to_iff t et ei).mp hb)),
      if_pos ((touch_from_iff t et ei).mpr h2), if_neg h1, if_pos h2]
    simp only [List.map_cons, List.sum_cons]
    ring
  · rw [if_neg (fun hb => h1 ((touch_to_iff t et ei).mp hb)),
      if_neg (fun hb => h2 ((touch_from_iff t et ei).mp hb)), if_neg h1, if_neg h2]
    ring

lemma entityNet_nil (et : String) (ei : Nat) : entityNet [] et ei = 0 := rfl

lemma entityNet_append_singleton (l : List Tx) (t : Tx) (et : String) (ei : Nat) :
    entityNet (l ++ [t]) et ei = entityNet l et ei + txContrib et ei t := by
  induction l with
  | nil =>
    rw [List.nil_append, entityNet_cons]
    ring
  | cons u us ih =>
    rw [List.cons_append, entityNet_cons, ih, entityNet_cons]
    ring

lemma entityNet_filter_ne (l : List Tx) (t : Tx) (hnd : (l.map Tx.id).Nodup)
    (hmem : t ∈ l) (et : String) (ei : Nat) :
    entityNet (l.filter (fun x => x.id != t.id)) et ei =
      entityNet l et ei - txContrib et ei t := by
  induction l with
  | nil => cases hmem
  | cons u us ih =>
    rw [List.map_cons, List.nodup_cons] at hnd
    rcases List.mem_cons.mp hmem with rfl | hmem2
    · rw [List.filter_cons, if_neg (by simp)]
      have hall : ∀ x ∈ us, (x.id != t.id) = true := by
        intro x hx
        have hxid : x.id ∈ us.map Tx.id := List.mem_map_of_mem Tx.id hx
        have hne : x.id ≠ t.id := fun he => hnd.1 (he ▸ hxid)
        simpa using hne
      rw [List.filter_eq_self.mpr hall, entityNet_cons]
      ring
    · have hne : u.id ≠ t.id := by
        intro he
        exact hnd.1 (he ▸ List.mem_map_of_mem Tx.id hmem2)
      rw [List.filter_cons, if_pos (by simpa using hne), entityNet_cons, entityNet_cons,
        ih hnd.2 hmem2]
      ring

/-! ## Success-shape inversion lemmas -/

lemma find?_append_of_none {α : Type} {p : α → Bool} {l1 l2 : List α}
    (h : ∀ x ∈ l1, ¬ p x = true) : (l1 ++ l2).find? p = l2.find? p := by
  rw [List.find?_append, List.find?_eq_none.mpr h]
  rfl

lemma add_transaction_ok {now dt : String} {a : ℤ} {ft : String} {fi : Nat} {tt : String}
    {ti : Nat} {de re : String} {s : DBState} {p : Nat × DBState}
    (h : add_transaction now dt a ft fi tt ti de re s = .ok p) :
    0 < a ∧ (ft = "company" ∨ ft = "user") ∧ (tt = "company" ∨ tt = "user") ∧
    p = (s.nextTxId, adjustBalance tt ti a (adjustBalance ft fi (-a)
      { s with
        transactions :=
          s.transactions ++ [⟨s.nextTxId, dt, a, ft, fi, tt, ti, de, re, now⟩],
        nextTxId := s.nextTxId + 1 })) := by
  unfold add_transaction at h
  split at h
  next h1 => exact absurd h (by simp)
  next h1 =>
    split at h
    next h2 => exact absurd h (by simp)
    next h2 =>
      push_neg at h2
      obtain ⟨hf, ht⟩ := h2
      simp only [Except.ok.injEq] at h
      rw [adjustBalanceElse_eq ft fi (-a) _ hf, adjustBalanceElse_eq tt ti a _ ht] at h
      exact ⟨not_le.mp h1, hf, ht, h.symm⟩

lemma deposit_ok {now et : String} {ei : Nat} {a : ℤ} {de : String} {s : DBState}
    {p : Nat × DBState} (h : deposit now et ei a de s = .ok p) :
    0 < a ∧ (et = "company" ∨ et = "user") ∧
    p = (s.nextTxId, adjustBalance et ei a
      { s with
        transactions :=
          s.transactions ++ [⟨s.nextTxId, now, a, "cash", 0, et, ei, de, "DEPOSIT", now⟩],
        nextTxId := s.nextTxId + 1 }) := by
  unfold deposit at h
  split at h
  next h1 => exact absurd h (by simp)
  next h1 =>
    split at h
    next h2 => exact absurd h (by simp)
    next h2 =>
      push_neg at h2
      simp only [Except.ok.injEq] at h
      rw [adjustBalanceElse_eq et ei a _ h2] at h
      exact ⟨not_le.mp h1, h2, h.symm⟩

lemma withdraw_ok {now et : String} {ei : Nat} {a : ℤ} {de : String} {s : DBState}
    {p : Nat × DBState} (h : withdraw now et ei a de s = .ok p) :
    0 < a ∧ (et = "company" ∨ et = "user") ∧
    p = (s.nextTxId, adjustBalance et ei (-a)
      { s with
        transactions :=
          s.transactions ++ [⟨s.nextTxId, now, a, et, ei, "cash", 0, de, "WITHDRAW", now⟩],
        nextTxId := s.nextTxId + 1 }) := by
  unfold withdraw at h
  split at h
  next h1 => exact absurd h (by simp)
  next h1 =>
    split at h
    next h2 => exact absurd h (by simp)
    next h2 =>
      push_neg at h2
      split at h
      next hb => exact absurd h (by simp)
      next b hb =>
        split at h
        next h3 => exact absurd h (by simp)
        next h3 =>
          simp only [Except.ok.injEq] at h
          rw [adjustBalanceElse_eq et ei (-a) _ h2] at h
          exact ⟨not_le.mp h1, h2, h.symm⟩

lemma delete_transaction_eq {tid : Nat} {s : DBState} {t : Tx}
    (hfind : s.transactions.find? (fun x => x.id == tid) = some t) :
    delete_transaction tid s =
      (s.transactions.countP (fun x => x.id == tid),
       { adjustBalance t.to_type t.to_id (-t.amount)
           (adjustBalance t.from_type t.from_id t.amount s) with
         transactions :=
           (adjustBalance t.to_type t.to_id (-t.amount)
             (adjustBalance t.from_type t.from_id t.amount s)).transactions.filter
               (fun x => x.id != tid) }) := by
  unfold delete_transaction
  rw [hfind]

/-- C5: a successful `add_transaction` immediately followed by
`delete_transaction` of the returned id reports one deleted row and restores
the company balances, the user balances and the transaction table exactly to
their values before the insertion. -/
theorem record_then_delete (now dt : String) (a : ℤ) (ft : String) (fi : Nat) (tt : String)
    (ti : Nat) (de re : String) (s s1 : DBState) (tid : Nat)
    (hfresh : ∀ t ∈ s.transactions, t.id ≠ s.nextTxId)
    (h : add_transaction now dt a ft fi tt ti de re s = .ok (tid, s1)) :
    (delete_transaction tid s1).1 = 1 ∧
    (delete_transaction tid s1).2.companies = s.companies ∧
    (delete_transaction tid s1).2.users = s.users ∧
    (delete_transaction tid s1).2.transactions = s.transactions := by
  obtain ⟨hpos, hf, ht, hp⟩ := add_transaction_ok h
  have htid : tid = s.nextTxId := congrArg Prod.fst hp
  have hs1 : s1 = adjustBalance tt ti a (adjustBalance ft fi (-a)
      { s with
        transactions :=
          s.transactions ++ [⟨s.nextTxId, dt, a, ft, fi, tt, ti, de, re, now⟩],
        nextTxId := s.nextTxId + 1 }) := congrArg Prod.snd hp
  subst htid
  subst hs1
  have htr : (adjustBalance tt ti a (adjustBalance ft fi (-a)
      { s with
        transactions :=
          s.transactions ++ [⟨s.nextTxId, dt, a, ft, fi, tt, ti, de, re, now⟩],
        nextTxId := s.nextTxId + 1 })).transactions =
      s.transactions ++ [⟨s.nextTxId, dt, a, ft, fi, tt, ti, de, re, now⟩] := by
    rw [adjustBalance_transactions, adjustBalance_transactions]
  have hnone : ∀ x ∈ s.transactions, ¬ ((fun y : Tx => y.id == s.nextTxId) x = true) := by
    intro x hx
    simp only [beq_iff_eq]
    exact hfresh x hx
  have hfind : (adjustBalance tt ti a (adjustBalance ft fi (-a)
      { s with
        transactions :=
          s.transactions ++ [⟨s.nextTxId, dt, a, ft, fi, tt, ti, de, re, now⟩],
        nextTxId := s.nextTxId + 1 })).transactions.find?
        (fun x => x.id == s.nextTxId) =
      some ⟨s.nextTxId, dt, a, ft, fi, tt, ti, de, re, now⟩ := by
    rw [htr, find?_append_of_none hnone]
    simp [List.find?]
  rw [delete_transaction_eq hfind]
  dsimp only
  refine ⟨?_, ?_, ?_, ?_⟩
  · rw [htr, List.countP_append, List.countP_eq_zero.mpr hnone]
    simp
  · rw [adjustBalance_companies, adjustBalance_companies, adjustBalance_companies,
      adjustBalance_companies]
    dsimp only
    rw [List.map_map, List.map_map, List.map_map]
    refine (List.map_congr_left ?_).trans (List.map_id' s.companies)
    intro c _
    obtain ⟨cid, cn, ca, cp, ce, cb⟩ := c
    by_cases hF : ft = "company" ∧ fi = cid <;> by_cases hT : tt = "company" ∧ ti = cid <;>
      simp [Function.comp, hF, hT]
  · rw [adjustBalance_users, adjustBalance_users, adjustBalance_users, adjustBalance_users]
    dsimp only
    rw [List.map_map, List.map_map, List.map_map]
    refine (List.map_congr_left ?_).trans (List.map_id' s.users)
    intro u _
    obtain ⟨uid, uc, un, ue, ur, ud, ub⟩ := u
    by_cases hF : ft = "user" ∧ fi = uid <;> by_cases hT : tt = "user" ∧ ti = uid <;>
      simp [Function.comp, hF, hT]
  · rw [adjustBalance_transactions, adjustBalance_transactions, htr, List.filter_append]
    have hall : ∀ x ∈ s.transactions, (x.id != s.nextTxId) = true := by
      intro x hx
      simpa using hfresh x hx
    rw [List.filter_eq_self.mpr hall]
    simp [List.filter]

/-! ## C1: preservation of the balance invariant -/

lemma balancesConsistent_insert (t0 : Tx) (s : DBState) (hinv : balancesConsistent s) :
    balancesConsistent (adjustBalance t0.to_type t0.to_id t0.amount
      (adjustBalance t0.from_type t0.from_id (-t0.amount)
        { s with transactions := s.transactions ++ [t0], nextTxId := s.nextTxId + 1 })) := by
  have htr : (adjustBalance t0.to_type t0.to_id t0.amount
      (adjustBalance t0.from_type t0.from_id (-t0.amount)
        { s with transactions := s.transactions ++ [t0], nextTxId := s.nextTxId + 1 })).transactions = s.transactions ++ [t0] := by
    rw [adjustBalance_transactions, adjustBalance_transactions]
  constructor
  · intro c2 hc2
    rw [adjustBalance_companies, adjustBalance_companies, List.map_map] at hc2
    rcases List.mem_map.mp hc2 with ⟨c, hc, rfl⟩
    rw [htr, entityNet_append_singleton]
    have hbase := hinv.1 c hc
    obtain ⟨cid, cn, ca, cp, ce, cb⟩ := c
    dsimp only at hbase
    by_cases hF : t0.from_type = "company" ∧ t0.from_id = cid <;>
      by_cases hT : t0.to_type = "company" ∧ t0.to_id = cid <;>
      simp [txContrib, hF, hT] <;>
      omega
  · intro u2 hu2
    rw [adjustBalance_users, adjustBalance_users, List.map_map] at hu2
    rcases List.mem_map.mp hu2 with ⟨u, hu, rfl⟩
    rw [htr, entityNet_append_singleton]
    have hbase := hinv.2 u hu
    obtain ⟨uid, uc, un, ue, ur, ud, ub⟩ := u
    dsimp only at hbase
    by_cases hF : t0.from_type = "user" ∧ t0.from_id = uid <;>
      by_cases hT : t0.to_type = "user" ∧ t0.to_id = uid <;>
      simp [txContrib, hF, hT] <;>
      omega

lemma balancesConsistent_delete (tid : Nat) (s : DBState) (hw : wfState s)
    (hinv : balancesConsistent s) : balancesConsistent (delete_transaction tid s).2 := by
  cases hfind : s.transactions.find? (fun x => x.id == tid) with
  | none =>
    unfold delete_transaction
    rw [hfind]
    exact hinv
  | some t =>
    have htmem : t ∈ s.transactions := List.mem_of_find?_eq_some hfind
    have htid : t.id = tid := by
      have h0 := List.find?_some hfind
      simpa using h0
    rw [delete_transaction_eq hfind]
    dsimp only
    have htr2 : (adjustBalance t.to_type t.to_id (-t.amount)
        (adjustBalance t.from_type t.from_id t.amount s)).transactions = s.transactions := by
      rw [adjustBalance_transactions, adjustBalance_transactions]
    constructor
    · intro c2 hc2
      rw [adjustBalance_companies, adjustBalance_companies, List.map_map] at hc2
      rcases List.mem_map.mp hc2 with ⟨c, hc, rfl⟩
      rw [htr2, ← htid, entityNet_filter_ne s.transactions t hw.2 htmem]
      have hbase := hinv.1 c hc
      obtain ⟨cid, cn, ca, cp, ce, cb⟩ := c
      dsimp only at hbase
      by_cases hF : t.from_type = "company" ∧ t.from_id = cid <;>
        by_cases hT : t.to_type = "company" ∧ t.to_id = cid <;>
        simp [txContrib, hF, hT] <;>
        omega
    · intro u2 hu2
      rw [adjustBalance_users, adjustBalance_users, List.map_map] at hu2
      rcases List.mem_map.mp hu2 with ⟨u, hu, rfl⟩
      rw [htr2, ← htid, entityNet_filter_ne s.transactions t hw.2 htmem]
      have hbase := hinv.2 u hu
      obtain ⟨uid, uc, un, ue, ur, ud, ub⟩ := u
      dsimp only at hbase
      by_cases hF : t.from_type = "user" ∧ t.from_id = uid <;>
        by_cases hT : t.to_type = "user" ∧ t.to_id = uid <;>
        simp [txContrib, hF, hT] <;>
        omega

lemma wfState_insert (t0 : Tx) (s : DBState) (hw : wfState s) (hid : t0.id = s.nextTxId) :
    wfState (adjustBalance t0.to_type t0.to_id t0.amount
      (adjustBalance t0.from_type t0.from_id (-t0.amount)
        { s with transactions := s.transactions ++ [t0], nextTxId := s.nextTxId + 1 })) := by
  have htr : (adjustBalance t0.to_type t0.to_id t0.amount
      (adjustBalance t0.from_type t0.from_id (-t0.amount)
        { s with transactions := s.transactions ++ [t0], nextTxId := s.nextTxId + 1 })).transactions = s.transactions ++ [t0] := by
    rw [adjustBalance_transactions, adjustBalance_transactions]
  have hnx : (adjustBalance t0.to_type t0.to_id t0.amount
      (adjustBalance t0.from_type t0.from_id (-t0.amount)
        { s with transactions := s.transactions ++ [t0], nextTxId := s.nextTxId + 1 })).nextTxId = s.nextTxId + 1 := by
    rw [adjustBalance_nextTxId, adjustBalance_nextTxId]
  constructor
  · intro x hx
    rw [htr] at hx
    rw [hnx]
    rcases List.mem_append.mp hx with hx | hx
    · exact Nat.lt_succ_of_lt (hw.1 x hx)
    · rw [List.mem_singleton.mp hx, hid]
      exact Nat.lt_succ_self _
  · rw [htr, List.map_append]
    refine List.Nodup.append hw.2 (by simp) ?_
    intro x hx1 hx2
    simp only [List.map_cons, List.map_nil, List.mem_singleton] at hx2
    rcases List.mem_map.mp hx1 with ⟨u, hu, hux⟩
    have hlt : u.id < s.nextTxId := hw.1 u hu
    rw [hux, hx2, hid] at hlt
    exact lt_irrefl _ hlt

lemma wfState_delete (tid : Nat) (s : DBState) (hw : wfState s) :
    wfState (delete_transaction tid s).2 := by
  cases hfind : s.transactions.find? (fun x => x.id == tid) with
  | none =>
    unfold delete_transaction
    rw [hfind]
    exact hw
  | some t =>
    rw [delete_transaction_eq hfind]
    dsimp only
    have htr2 : (adjustBalance t.to_type t.to_id (-t.amount)
        (adjustBalance t.from_type t.from_id t.amount s)).transactions = s.transactions := by
      rw [adjustBalance_transactions, adjustBalance_transactions]
    have hnx2 : (adjustBalance t.to_type t.to_id (-t.amount)
        (adjustBalance t.from_type t.from_id t.amount s)).nextTxId = s.nextTxId := by
      rw [adjustBalance_nextTxId, adjustBalance_nextTxId]
    constructor
    · intro x hx
      rw [htr2] at hx
      rw [hnx2]
      exact hw.1 x (List.mem_of_mem_filter hx)
    · rw [htr2]
      exact List.Nodup.sublist ((List.filter_sublist _).map Tx.id) hw.2

lemma runOp_preserves (op : LedgerOp) (s s' : DBState) (hw : wfState s)
    (hinv : balancesConsistent s) (h : runOp op s = some s') :
    wfState s' ∧ balancesConsistent s' := by
  cases op with
  | record now dt a ft fi tt ti de re =>
    simp only [runOp] at h
    cases hadd : add_transaction now dt a ft fi tt ti de re s with
    | error e =>
      rw [hadd] at h
      simp [Except.toOption] at h
    | ok p =>
      rw [hadd] at h
      simp only [Except.toOption, Option.map_some'] at h
      obtain ⟨hpos, hf, ht, hp⟩ := add_transaction_ok hadd
      have hs' : p.2 = s' := by simpa using h
      subst hs'
      rw [hp]
      exact ⟨wfState_insert ⟨s.nextTxId, dt, a, ft, fi, tt, ti, de, re, now⟩ s hw rfl,
        balancesConsistent_insert ⟨s.nextTxId, dt, a, ft, fi, tt, ti, de, re, now⟩ s hinv⟩
  | dep now et ei a de =>
    simp only [runOp] at h
    cases hdep : deposit now et ei a de s with
    | error e =>
      rw [hdep] at h
      simp [Except.toOption] at h
    | ok p =>
      rw [hdep] at h
      simp only [Except.toOption, Option.map_some'] at h
      obtain ⟨hpos, he, hp⟩ := deposit_ok hdep
      have hs' : p.2 = s' := by simpa using h
      subst hs'
      rw [hp]
      constructor
      · have hh := wfState_insert ⟨s.nextTxId, now, a, "cash", 0, et, ei, de, "DEPOSIT", now⟩
          s hw rfl
        dsimp only at hh
        rw [adjustBalance_cash] at hh
        exact hh
      · have hh := balancesConsistent_insert
          ⟨s.nextTxId, now, a, "cash", 0, et, ei, de, "DEPOSIT", now⟩ s hinv
        dsimp only at hh
        rw [adjustBalance_cash] at hh
        exact hh
  | wd now et ei a de =>
    simp only [runOp] at h
    cases hwd : withdraw now et ei a de s with
    | error e =>
      rw [hwd] at h
      simp [Except.toOption] at h
    | ok p =>
      rw [hwd] at h
      simp only [Except.toOption, Option.map_some'] at h
      obtain ⟨hpos, he, hp⟩ := withdraw_ok hwd
      have hs' : p.2 = s' := by simpa using h
      subst hs'
      rw [hp]
      constructor
      · have hh := wfState_insert ⟨s.nextTxId, now, a, et, ei, "cash", 0, de, "WITHDRAW", now⟩
          s hw rfl
        dsimp only at hh
        rw [adjustBalance_cash] at hh
        exact hh
      · have hh := balancesConsistent_insert
          ⟨s.nextTxId, now, a, et, ei, "cash", 0, de, "WITHDRAW", now⟩ s hinv
        dsimp only at hh
        rw [adjustBalance_cash] at hh
        exact hh
  | del tid =>
    simp only [runOp] at h
    have h2 : (delete_transaction tid s).2 = s' := by simpa using h
    subst h2
    exact ⟨wfState_delete tid s hw, balancesConsistent_delete tid s hw hinv⟩

lemma runOps_preserves (ops : List LedgerOp) : ∀ s s', wfState s → balancesConsistent s →
    runOps ops s = some s' → wfState s' ∧ balancesConsistent s' := by
  induction ops with
  | nil =>
    intro s s' hw hinv h
    have hss : s = s' := by simpa [runOps] using h
    subst hss
    exact ⟨hw, hinv⟩
  | cons op rest ih =>
    intro s s' hw hinv h
    unfold runOps at h
    cases hop : runOp op s with
    | none =>
      rw [hop] at h
      simp at h
    | some s1 =>
      rw [hop] at h
      obtain ⟨hw1, hinv1⟩ := runOp_preserves op s s1 hw hinv hop
      exact ih s1 s' hw1 hinv1 h

/-- C1: starting from any well-formed state whose stored balances agree with
the transaction history, after any sequence of `add_transaction`, `deposit`,
`withdraw` and `delete_transaction` calls that all succeed, every company's
and every user's stored balance equals the sum of amounts of the currently
present transactions crediting it minus the sum of those debiting it. -/
theorem ledger_balance_invariant (ops : List LedgerOp) (s0 s1 : DBState)
    (hw : wfState s0) (hinv : balancesConsistent s0) (hrun : runOps ops s0 = some s1) :
    balancesConsistent s1 :=
  (runOps_preserves ops s0 s1 hw hinv hrun).2

/-- Fresh two-party state for the round-trip witness. -/
def roundTripState : DBState :=
  { companies := [⟨1, "Acme", "", "", "", 0⟩],
    users := [⟨2, none, "John", "", "", "", 0⟩],
    transactions := [], nextCompanyId := 2, nextUserId := 3, nextTxId := 1 }

/-- State right after recording a 5-unit salary from `Acme` to `John`. -/
def roundTripMid : DBState :=
  { companies := [⟨1, "Acme", "", "", "", -5⟩],
    users := [⟨2, none, "John", "", "", "", 5⟩],
    transactions := [⟨1, "01-01-2024", 5, "company", 1, "user", 2, "salary", "", "ts"⟩],
    nextCompanyId := 2, nextUserId := 3, nextTxId := 2 }

/-- C5 witness: recording the salary and deleting the returned id 1 reports
one deleted row and restores the initial tables exactly. -/
theorem record_then_delete_witness :
    add_transaction "ts" "01-01-2024" 5 "company" 1 "user" 2 "salary" "" roundTripState =
      Except.ok (1, roundTripMid) ∧
    (delete_transaction 1 roundTripMid).1 = 1 ∧
    (delete_transaction 1 roundTripMid).2.companies = roundTripState.companies ∧
    (delete_transaction 1 roundTripMid).2.users = roundTripState.users ∧
    (delete_transaction 1 roundTripMid).2.transactions = roundTripState.transactions := by
  have h := record_then_delete "ts" "01-01-2024" 5 "company" 1 "user" 2 "salary" ""
    roundTripState roundTripMid 1 (by decide) (by rfl)
  exact ⟨by rfl, h.1, h.2.1, h.2.2.1, h.2.2.2⟩

/-- Fresh two-party state for the invariant witness. -/
def invDemoState : DBState :=
  { companies := [⟨1, "Acme", "", "", "", 0⟩],
    users := [⟨2, none, "John", "", "", "", 0⟩],
    transactions := [], nextCompanyId := 2, nextUserId := 3, nextTxId := 1 }

/-- A run touching all four call kinds: seed `Acme` with cash, pay `John`,
let `John` withdraw, then delete the salary transaction. -/
def invDemoOps : List LedgerOp :=
  [.dep "01-01-2024" "company" 1 1000 "seed",
   .record "02-01-2024" "02-01-2024" 500 "company" 1 "user" 2 "salary" "",
   .wd "03-01-2024" "user" 2 200 "spend",
   .del 2]

/-- End state of the demo run: the deposit and withdrawal rows remain, the
salary row is gone, and the balances track the surviving rows (`John` ends
at −200: the credit backing the withdrawal was deleted). -/
def invDemoEnd : DBState :=
  { companies := [⟨1, "Acme", "", "", "", 1000⟩],
    users := [⟨2, none, "John", "", "", "", -200⟩],
    transactions :=
      [⟨1, "01-01-2024", 1000, "cash", 0, "company", 1, "seed", "DEPOSIT", "01-01-2024"⟩,
       ⟨3, "03-01-2024", 200, "user", 2, "cash", 0, "spend", "WITHDRAW", "03-01-2024"⟩],
    nextCompanyId := 2, nextUserId := 3, nextTxId := 4 }

/-- C1 witness: the demo run succeeds and the invariant theorem yields
consistency of its end state. -/
theorem ledger_balance_invariant_witness :
    wfState invDemoState ∧ balancesConsistent invDemoState ∧
    runOps invDemoOps invDemoState = some invDemoEnd ∧
    balancesConsistent invDemoEnd :=
  ⟨by unfold wfState; decide, by unfold balancesConsistent; decide, by rfl,
   ledger_balance_invariant invDemoOps invDemoState invDemoEnd
     (by unfold wfState; decide) (by unfold balancesConsistent; decide) (by rfl)⟩
